import Mathlib

/-!
# zklock: run a command under a ZooKeeper lock

A shallow embedding of `zklock.go` (`func main`).  The coordination client
(`zk.Conn`), the operating system's signal delivery and the scheduling of the
three goroutines are parameters of the model:

* the client is a record of the three calls the program makes
  (`Exists`, `Create`, `Get`) over an arbitrary client state `σ`;
* the main goroutine is cut at its blocking calls into program points
  (`MainPc`), and one `Action` is one scheduling decision.

Go strings and byte slices are modelled by `String`; a `nil` slice and the
empty slice are both `""` (`bytes.Equal` does not tell them apart).
-/

namespace Zklock

/-! ## Data model -/

/-- Values of Go's `error` returned by the client.  The program only ever
compares against `zk.ErrNodeExists`; `ErrNoNode` is what the server answers
for a missing node, `other` is any further error value with its text. -/
inductive ZkError
  | ErrNodeExists
  | ErrNoNode
  | other (msg : String)
  deriving DecidableEq, Repr

/-- Method `Error()` of an error value. -/
def ZkError.Error : ZkError → String
  | .ErrNodeExists => "zk: node already exists"
  | .ErrNoNode => "zk: node does not exist"
  | .other msg => msg

/-- Constant `zk.FlagEphemeral`. -/
def FlagEphemeral : Nat := 1

/-- The three calls made on the connection `c`.  Each call may change the
client state and returns the values the Go method returns (the `*Stat` results
are never used by the program and are left out). -/
structure Client (σ : Type) where
  /-- Call `c.Exists(path)`: `(exists, err)`. -/
  Exists : σ → String → σ × (Bool × Option ZkError)
  /-- Call `c.Create(path, data, flags, acl)`: `(createdPath, err)`. -/
  Create : σ → String → String → Nat → σ × (String × Option ZkError)
  /-- Call `c.Get(path)`: `(data, err)`. -/
  Get : σ → String → σ × (String × Option ZkError)

/-- The command line: the flags of lines 21-28 and the positional arguments
`args`, and the result of `os.Hostname()` (the empty string when the lookup
fails, its error being dropped on line 20). -/
structure Config where
  /-- Result of `os.Hostname()`. -/
  hostname : String
  /-- Flag `-zk`. -/
  zookeepers : String
  /-- Flag `-p`, the variable `prefix` of the program (a keyword of Lean). -/
  prefixNode : String
  /-- Flag `-n`. -/
  nowait : Bool
  /-- Flag `-t`. -/
  sessionTimeout : Int
  /-- Flag `-a`. -/
  sleepAfter : Int
  /-- Flag `-b`. -/
  sleepBefore : Int
  /-- Flag `-k`. -/
  dontKill : Bool
  /-- Flag `-d`. -/
  debug : Bool
  /-- Result of `flag.Args()`. -/
  args : List String
  deriving DecidableEq, Repr

/-- Line 67, `args[0]`. -/
def Config.lockname (cfg : Config) : String :=
  cfg.args.headD ""

/-- Path of the lock node, `*prefix+"/"+lockname` (line 68). -/
def Config.lockNode (cfg : Config) : String :=
  cfg.prefixNode ++ "/" ++ cfg.lockname

/-- Observable calls, in program order.  `log` is a call of `log.Printf` or
`log.Println` (its output is discarded unless `-d` is given, lines 31-34);
`connect` is the call of `zk.Connect` with the value of `-zk` (split at the
commas by the program) and of `-t`; `sleep n` is `time.Sleep(n * time.Second)`
for a constant `n`, `sleepFor d` is `time.Sleep(d)` for a computed
`time.Duration` of `d` nanoseconds (it returns at once when `d` is not
positive); `start` is the creation of the child process inside `cmd.Run()`;
`cmdKill` marks an entry into the closure `cmdKill`, `kill` is the call
`cmd.Process.Kill()` inside it. -/
inductive Event
  | log (msg : String)
  | sleep (seconds : Int)
  | sleepFor (nanoseconds : Int)
  | zkExists (path : String)
  | zkCreate (path data : String) (flags : Nat)
  | zkGet (path : String)
  | connect (zookeepers : String) (timeoutMs : Int)
  | usage
  | goSignals
  | goWatchdog
  | start (name : String) (args : List String)
  | cmdKill
  | kill
  deriving DecidableEq, Repr

/-- How the process ended. -/
inductive Exit
  /-- `main` returned. -/
  | returned
  /-- Call `os.Exit(code)`. -/
  | osExit (code : Nat)
  /-- Call `log.Fatal(msg)`: the message goes to the logger, then `os.Exit(1)`. -/
  | logFatal (msg : String)
  /-- Call `panic(err)`, `msg` being `err.Error()`. -/
  | panicErr (msg : String)
  /-- Run-time panic of `cmd.Process.Kill()` on a nil `cmd.Process`. -/
  | nilDeref
  deriving DecidableEq, Repr

/-- Exit status of the process: 0 on return from `main`, the argument of
`os.Exit`, 1 for `log.Fatal`, 2 for a Go panic. -/
def Exit.status : Exit → Nat
  | .returned => 0
  | .osExit code => code
  | .logFatal _ => 1
  | .panicErr _ => 2
  | .nilDeref => 2

/-- Field `cmd.Process`: nil (`absent`) until `cmd.Run()` has started the
child and stored its handle; afterwards the handle of a child that is running,
has been sent the kill signal, or has been waited for. -/
inductive Child
  | absent
  | running
  | killed
  | exited
  deriving DecidableEq, Repr

/-- Program points of the main goroutine. -/
inductive MainPc
  /-- Line 56, before `c.Exists(*prefix)`. -/
  | checkRoot
  /-- Line 61, before the create of the root node. -/
  | createRoot
  /-- Line 68, before the create of the lock node. -/
  | createLock
  /-- Line 80: lock acquired; `cmd` is built and the goroutines are launched next. -/
  | launch
  /-- Line 137, before `cmd.Run()`; both goroutines are running. -/
  | run
  /-- Inside `cmd.Run()`: the child process was created and its handle is not
  yet stored in `cmd.Process`. -/
  | started
  /-- Inside `cmd.Run()`: `cmd.Process` is set and `main` waits for the child. -/
  | wait
  /-- Line 139: `cmd.Run()` has returned. -/
  | after
  /-- Line 141: inside the post-delay `time.Sleep`. -/
  | sleeping
  /-- After line 144. -/
  | done
  deriving DecidableEq, Repr

/-- State of one zklock process. -/
structure Proc where
  pc : MainPc
  lockpath : String
  child : Child
  exit : Option Exit
  trace : List Event
  deriving DecidableEq, Repr

/-- The two signals passed to `signal.Notify` (line 98). -/
inductive Signal
  | Interrupt
  | SIGTERM
  deriving DecidableEq, Repr

/-- One scheduling decision: the main goroutine runs to its next program
point (`startOk` tells whether the operating system starts the child, read at
`MainPc.run` only), the child exits and is waited for, the signal goroutine
receives a signal, or the watchdog goroutine runs one iteration of its loop. -/
inductive Action
  | main (startOk : Bool)
  | childExit
  | signal (sig : Signal)
  | tick
  deriving DecidableEq, Repr

/-! ## The program -/

/-- Wrap-around of Go's `int64`. -/
def toInt64 (x : Int) : Int :=
  (x + 9223372036854775808) % 18446744073709551616 - 9223372036854775808

/-- The duration `time.Duration(n) * time.Second` of lines 46 and 141, in
nanoseconds: an `int64` product, which wraps around. -/
def seconds (n : Int) : Int :=
  toInt64 (n * 1000000000)

/-- Append events to the trace. -/
def Proc.emit (p : Proc) (es : List Event) : Proc :=
  { p with trace := p.trace ++ es }

/-- End the process. -/
def Proc.halt (p : Proc) (e : Exit) : Proc :=
  { p with exit := some e }

/-- Both goroutines have been launched (lines 100 and 115 are passed). -/
def MainPc.tasksStarted : MainPc → Bool
  | .run | .started | .wait | .after | .sleeping | .done => true
  | _ => false

/-- Closure `cmdKill` (lines 86-90).  `cmd.Process.Kill()` on a nil
`cmd.Process` is a nil-pointer dereference; on a child that is already gone it
returns an error, which the closure drops. -/
def cmdKill (cfg : Config) (p : Proc) : Proc :=
  let p := p.emit [.cmdKill]
  if !cfg.dontKill then
    match p.child with
    | .absent => p.halt .nilDeref
    | .running => { p.emit [.kill] with child := .killed }
    | .killed => p.emit [.kill]
    | .exited => p.emit [.kill]
  else p

/-- Closure `exitFatal` (lines 92-95). -/
def exitFatal (cfg : Config) (str : String) (p : Proc) : Proc :=
  let p := cmdKill cfg p
  match p.exit with
  | some _ => p
  | none => p.halt (.logFatal str)

/-- Message of line 132,
`fmt.Sprintf("Lock %s re-aquired by another host %s\n", lockpath, data)`. -/
def usurpedMsg (lockpath data : String) : String :=
  "Lock " ++ lockpath ++ " re-aquired by another host " ++ data ++ "\n"

/-- One iteration of the watchdog loop (lines 116-134). -/
def watchdogTick {σ : Type} (c : Client σ) (cfg : Config) (s : σ) (p : Proc) : σ × Proc :=
  let p := p.emit [.sleep 1, .zkGet p.lockpath]
  let (s, data, err) := c.Get s p.lockpath
  if err = some .ErrNodeExists ∨ data = "" then
    let p := p.emit [.log "Lock disappeared. Try to re-aquire\n",
      .zkCreate p.lockpath cfg.hostname FlagEphemeral]
    let (s, _, err) := c.Create s p.lockpath cfg.hostname FlagEphemeral
    match err with
    | some e => (s, exitFatal cfg e.Error p)
    | none => (s, p.emit [.log ("Lock " ++ p.lockpath ++ " re-aquired\n")])
  else
    let p := match err with
      | some e => p.emit [.log (e.Error ++ "\n")]
      | none => p
    if data ≠ cfg.hostname then
      (s, exitFatal cfg (usurpedMsg p.lockpath data) p)
    else (s, p)

/-- One pass of the signal goroutine's loop body (lines 102-111). -/
def onSignal (cfg : Config) (sig : Signal) (p : Proc) : Proc :=
  match sig with
  | .Interrupt => cmdKill cfg (p.emit [.log "SIGINT received\n"])
  | .SIGTERM =>
    let p := cmdKill cfg (p.emit [.log "SIGTERM received\n"])
    match p.exit with
    | some _ => p
    | none => p.halt (.osExit 1)

/-- Formatting of a string slice by `%+v`. -/
def fmtArgs (args : List String) : String :=
  "[" ++ " ".intercalate args ++ "]"

/-- The main goroutine from one program point to the next (lines 56-144).
`cmd.Run()` is cut in three: the creation of the child process (`run`), the
store of its handle into `cmd.Process` (`started`), which the goroutines read
without synchronisation, and the wait (`wait`). -/
def mainStep {σ : Type} (c : Client σ) (cfg : Config) (startOk : Bool) (s : σ) (p : Proc) :
    σ × Proc :=
  match p.pc with
  | .checkRoot =>
    let p := p.emit [.zkExists cfg.prefixNode]
    let (s, found, err) := c.Exists s cfg.prefixNode
    match err with
    | some e => (s, p.halt (.panicErr e.Error))
    | none => if !found then (s, { p with pc := .createRoot }) else (s, { p with pc := .createLock })
  | .createRoot =>
    let p := p.emit [.zkCreate cfg.prefixNode "" 0]
    let (s, _, err) := c.Create s cfg.prefixNode "" 0
    match err with
    | some e =>
      if e ≠ .ErrNodeExists then (s, p.halt (.panicErr e.Error))
      else (s, { p with pc := .createLock })
    | none => (s, { p with pc := .createLock })
  | .createLock =>
    let p := p.emit [.zkCreate cfg.lockNode cfg.hostname FlagEphemeral]
    let (s, lockpath, err) := c.Create s cfg.lockNode cfg.hostname FlagEphemeral
    match err with
    | some e =>
      if e = .ErrNodeExists then
        let p := if cfg.nowait then p else p
        (s, (p.emit [.log ("Lock " ++ lockpath ++ " exists. Exit 1\n")]).halt (.osExit 1))
      else (s, p.halt (.panicErr e.Error))
    | none =>
      (s, { p.emit [.log ("Lock " ++ lockpath ++ " aquired\n")] with
              pc := .launch, lockpath := lockpath })
  | .launch =>
    (s, { p.emit [.log ("Run: " ++ fmtArgs (cfg.args.drop 1) ++ "\n"),
                  .goSignals, .goWatchdog] with pc := .run })
  | .run =>
    if startOk then
      (s, { p.emit [.start (cfg.args.getD 1 "") (cfg.args.drop 2)] with pc := .started })
    else (s, { p with pc := .after })
  | .started => (s, { p with pc := .wait, child := .running })
  | .wait => (s, p)
  | .after =>
    if cfg.sleepAfter > 0 then
      (s, { p.emit [.log ("Sleep " ++ toString cfg.sleepAfter ++ " seconds\n"),
                    .sleepFor (seconds cfg.sleepAfter)] with pc := .sleeping })
    else (s, { (p.emit [.log "done\n"]).halt .returned with pc := .done })
  | .sleeping => (s, { (p.emit [.log "done\n"]).halt .returned with pc := .done })
  | .done => (s, p)

/-- The child terminates and the wait of `cmd.Run()` returns; `main` resumes. -/
def childExit (p : Proc) : Proc :=
  match p.child with
  | .absent => p
  | .exited => p
  | _ => { p with child := .exited, pc := if p.pc = .wait then .after else p.pc }

/-- One scheduling decision applied to a process.  Nothing runs once the
process has ended; the goroutines run only after they were launched. -/
def step {σ : Type} (c : Client σ) (cfg : Config) (a : Action) (st : σ × Proc) : σ × Proc :=
  match st.2.exit with
  | some _ => st
  | none =>
    match a with
    | .main startOk => mainStep c cfg startOk st.1 st.2
    | .childExit => (st.1, childExit st.2)
    | .signal sig => if st.2.pc.tasksStarted then (st.1, onSignal cfg sig st.2) else st
    | .tick => if st.2.pc.tasksStarted then watchdogTick c cfg st.1 st.2 else st

/-- A schedule applied from left to right. -/
def run {σ : Type} (c : Client σ) (cfg : Config) (acts : List Action) (st : σ × Proc) : σ × Proc :=
  acts.foldl (fun st a => step c cfg a st) st

/-- Lines 36-52: argument check, pre-delay and connection, up to line 56.
`connectErr` is the error returned by `zk.Connect`. -/
def boot (cfg : Config) (connectErr : Option ZkError) : Proc :=
  let p : Proc := ⟨.checkRoot, "", .absent, none, [.log ("Args: " ++ fmtArgs cfg.args ++ "\n")]⟩
  if cfg.args.length < 2 then (p.emit [.usage]).halt .returned
  else
    let p := if cfg.sleepBefore > 0 then
      p.emit [.log ("Sleep " ++ toString cfg.sleepBefore ++ " seconds\n"),
        .sleepFor (seconds cfg.sleepBefore)]
      else p
    let p := p.emit [.connect cfg.zookeepers cfg.sessionTimeout]
    match connectErr with
    | some e => p.halt (.panicErr e.Error)
    | none => p

/-- Lines 56-65 as one piece: the existence check and, when the root is
missing, the create of the root node. -/
def ensureRoot {σ : Type} (c : Client σ) (cfg : Config) (st : σ × Proc) : σ × Proc :=
  let r := step c cfg (.main true) st
  if r.2.pc = .createRoot then step c cfg (.main true) r else r

/-! ## The coordination service -/

/-- Modelled from the spec: a node of the coordination service (section 3,
LockNode: path, value, ephemeral). -/
structure Node where
  path : String
  data : String
  ephemeral : Bool
  deriving DecidableEq, Repr

/-- Modelled from the spec: the content of the coordination service, the nodes
that exist. -/
abbrev Store := List Node

/-- A node exists at `path`. -/
def Store.has (st : Store) (path : String) : Bool :=
  st.any (fun n => n.path == path)

/-- Modelled from the spec: the coordination service of sections 1 and 2 without
faults: atomic node creation that answers "already exists" for a path that is
taken, an existence check, and point reads that answer "does not exist" for a
missing node.  Nodes are never removed and the hierarchy of the paths is not
modelled. -/
def storeClient : Client Store where
  Exists st path := (st, (Store.has st path, none))
  Create st path data flags :=
    if Store.has st path then (st, ("", some .ErrNodeExists))
    else (st ++ [⟨path, data, flags == FlagEphemeral⟩], (path, none))
  Get st path :=
    match st.find? (fun n => n.path == path) with
    | some n => (st, (n.data, none))
    | none => (st, ("", some .ErrNoNode))

/-- A client that answers every call with a fixed result, whatever was asked
before. -/
def fixedClient (existsRes : Bool × Option ZkError) (createRes getRes : String × Option ZkError) :
    Client Unit where
  Exists _ _ := ((), existsRes)
  Create _ _ _ _ := ((), createRes)
  Get _ _ := ((), getRes)

/-- Several zklock processes, one per index, against one coordination
service. -/
structure Cluster where
  store : Store
  procs : Nat → Proc

/-- Process `i` of the cluster performs one action. -/
def clusterStep (cfgs : Nat → Config) (ia : Nat × Action) (cl : Cluster) : Cluster :=
  let r := step storeClient (cfgs ia.1) ia.2 (cl.store, cl.procs ia.1)
  ⟨r.1, Function.update cl.procs ia.1 r.2⟩

/-- A schedule of the cluster, from left to right. -/
def clusterRun (cfgs : Nat → Config) (sched : List (Nat × Action)) (cl : Cluster) : Cluster :=
  sched.foldl (fun cl ia => clusterStep cfgs ia cl) cl

/-! ## Observations on states and traces -/

/-- The lock create of line 68 succeeded: `main` is at or past line 78. -/
def MainPc.acquired : MainPc → Bool
  | .checkRoot | .createRoot | .createLock => false
  | _ => true

/-- The child was started: a `start` event is in the trace. -/
def spawned (tr : List Event) : Bool :=
  tr.any (fun e => match e with | .start _ _ => true | _ => false)

/-- Number of create calls in a trace. -/
def creates (tr : List Event) : Nat :=
  tr.countP (fun e => match e with | .zkCreate _ _ _ => true | _ => false)

/-- Number of entries into `cmdKill` in a trace. -/
def killRequests (tr : List Event) : Nat :=
  tr.count .cmdKill

/-- State of the child handle after `cmd.Process.Kill()`. -/
def Child.afterKill : Child → Child
  | .running => .killed
  | ch => ch

/-- The log line of lines 128-130 for the error of a read, if any. -/
def errLog (err : Option ZkError) : List Event :=
  (err.map fun e => Event.log (e.Error ++ "\n")).toList

/-- The events of one call of `cmdKill` on a live process. -/
def killEvents (cfg : Config) (child : Child) : List Event :=
  if cfg.dontKill = true ∨ child = .absent then [.cmdKill] else [.cmdKill, .kill]

/-! ## Example inputs -/

/-- A command line used in the examples: `zklock job1 sleep 5` on `host-a`. -/
def demoCfg : Config :=
  ⟨"host-a", "localhost", "/zklock", true, 4000, 0, 0, false, false, ["job1", "sleep", "5"]⟩

/-- The four steps of `main` from line 56 to line 137, the root missing: both
goroutines are launched and `cmd.Run()` has not been called. -/
def launchActs : List Action :=
  [.main true, .main true, .main true, .main true]

/-- The five steps of `main` from line 56 into `cmd.Run()`, the root missing:
the child process is created and `cmd.Process` is not yet set. -/
def racedActs : List Action :=
  [.main true, .main true, .main true, .main true, .main true]

/-- The six steps of `main` from line 56 into the wait of `cmd.Run()`, the
root missing and the child starting. -/
def startupActs : List Action :=
  [.main true, .main true, .main true, .main true, .main true, .main true]

/-- The process of `demoCfg` after `startupActs` against an empty store: the
lock is held, the child runs and `main` waits inside `cmd.Run()`. -/
def demoProc : Proc :=
  (run storeClient demoCfg startupActs ([], boot demoCfg none)).2

/-- A store in which `job1` is held by another host, `host-b`. -/
def heldStore : Store :=
  [⟨"/zklock", "", false⟩, ⟨"/zklock/job1", "host-b", true⟩]

/-- The store left by `startupActs`, in which `job1` is held by `host-a`. -/
def ownStore : Store :=
  (run storeClient demoCfg startupActs ([], boot demoCfg none)).1

/-- The process of `demoCfg` at line 68, the root found in `heldStore`. -/
def atLock : Proc :=
  (run storeClient demoCfg [.main true] (heldStore, boot demoCfg none)).2

/-- A store from which the lock node is gone. -/
def lostStore : Store :=
  [⟨"/zklock", "", false⟩]

/-- The command line of `demoCfg` on a host whose name lookup failed. -/
def noNameCfg : Config :=
  { demoCfg with hostname := "" }

/-- A client whose connection is down: reads and creates fail with the
connection error and carry no value. -/
def flakyClient : Client Unit :=
  fixedClient (false, some (.other "zk: connection closed"))
    ("", some (.other "zk: connection closed")) ("", some (.other "zk: connection closed"))

/-- The command line of `demoCfg` with `-a 5`. -/
def delayCfg : Config :=
  { demoCfg with sleepAfter := 5 }

/-! ## Invariant of a cluster -/

/-- An ephemeral create is in the trace: the create of line 68 was called. -/
def attempted (tr : List Event) : Bool :=
  tr.any (fun e => match e with | .zkCreate _ _ fl => fl == FlagEphemeral | _ => false)

/-- A process on its way to line 68 or about to execute it: alive, no
ephemeral create called, no child started. -/
def Proc.startingUp (p : Proc) : Prop :=
  p.pc.acquired = false ∧ p.exit = none ∧ attempted p.trace = false ∧ spawned p.trace = false

/-- A process that was refused the lock: it called the create of line 68 and
ended by `os.Exit(1)` without starting a child. -/
def Proc.denied (p : Proc) : Prop :=
  p.pc = .createLock ∧ p.exit = some (.osExit 1) ∧ attempted p.trace = true
    ∧ spawned p.trace = false

/-- State of a cluster in which the lock at `path` is held at most once: every
process has the lock, is on its way or was refused; a process that has the
lock finds its node in the store; no two processes have the lock. -/
def Cluster.exclusive (path : String) (cl : Cluster) : Prop :=
  (∀ i, (cl.procs i).pc.acquired = true ∨ (cl.procs i).startingUp ∨ (cl.procs i).denied)
  ∧ (∀ i, (cl.procs i).pc.acquired = true → Store.has cl.store path = true)
  ∧ (∀ i j, (cl.procs i).pc.acquired = true → (cl.procs j).pc.acquired = true → i = j)

/-- Two hosts of the examples, `host-a` at index 0 and `host-b` elsewhere, with
the command line of `demoCfg`. -/
def twoHosts (i : Nat) : Config :=
  if i = 0 then demoCfg else { demoCfg with hostname := "host-b" }

/-- Both hosts start against an empty store. -/
def twoHostsBoot : Cluster :=
  ⟨[], fun i => boot (twoHosts i) none⟩

/-- The two hosts advance in turn, six steps of `main` each. -/
def turns : List (Nat × Action) :=
  [(0, .main true), (1, .main true), (0, .main true), (1, .main true), (0, .main true),
    (1, .main true), (0, .main true), (1, .main true), (0, .main true), (1, .main true),
    (0, .main true), (1, .main true)]

/-! ## General facts -/

/-- The duration of a delay is the number of seconds times `10^9` while that
fits an `int64`, and wraps to a negative duration just above. -/
theorem seconds_wraps :
    seconds 5 = 5000000000 ∧ seconds 9223372036 = 9223372036000000000
    ∧ seconds 9223372037 = -9223372036709551616 := by
  decide

theorem step_of_exited {σ : Type} (c : Client σ) (cfg : Config) (a : Action) (st : σ × Proc)
    (e : Exit) (h : st.2.exit = some e) : step c cfg a st = st := by
  unfold step
  rw [h]

theorem run_of_exited {σ : Type} (c : Client σ) (cfg : Config) (acts : List Action)
    (st : σ × Proc) (e : Exit) (h : st.2.exit = some e) : run c cfg acts st = st := by
  induction acts with
  | nil => rfl
  | cons a acts ih =>
    show run c cfg acts (step c cfg a st) = st
    rw [step_of_exited c cfg a st e h]
    exact ih

theorem cmdKill_spec (cfg : Config) (p : Proc) (hlive : p.exit = none) :
    cmdKill cfg p =
      { p with
        trace := p.trace ++ killEvents cfg p.child
        child := if cfg.dontKill = true then p.child else p.child.afterKill
        exit := if cfg.dontKill = true ∨ p.child ≠ .absent then none else some .nilDeref } := by
  obtain ⟨pc, lp, ch, ex, tr⟩ := p
  simp only at hlive
  subst hlive
  cases hk : cfg.dontKill <;> cases ch <;>
    simp [cmdKill, Proc.emit, Proc.halt, hk, killEvents, Child.afterKill]

theorem exitFatal_spec (cfg : Config) (str : String) (p : Proc) (hlive : p.exit = none) :
    exitFatal cfg str p =
      { p with
        trace := p.trace ++ killEvents cfg p.child
        child := if cfg.dontKill = true then p.child else p.child.afterKill
        exit := some (if cfg.dontKill = true ∨ p.child ≠ .absent then .logFatal str
                      else .nilDeref) } := by
  obtain ⟨pc, lp, ch, ex, tr⟩ := p
  simp only at hlive
  subst hlive
  cases hk : cfg.dontKill <;> cases ch <;>
    simp [exitFatal, cmdKill, Proc.emit, Proc.halt, hk, killEvents, Child.afterKill]

theorem exitFatal_trace (cfg : Config) (str : String) (p : Proc) (hlive : p.exit = none) :
    (exitFatal cfg str p).trace = p.trace ++ killEvents cfg p.child := by
  rw [exitFatal_spec cfg str p hlive]

theorem exitFatal_exit (cfg : Config) (str : String) (p : Proc) (hlive : p.exit = none) :
    ∃ x, (exitFatal cfg str p).exit = some x ∧ x.status ≠ 0
      ∧ ((cfg.dontKill = true ∨ p.child ≠ .absent) → x = .logFatal str) := by
  rw [exitFatal_spec cfg str p hlive]
  by_cases hk : cfg.dontKill = true ∨ p.child ≠ .absent
  · exact ⟨.logFatal str, by simp only [if_pos hk], by simp [Exit.status], fun _ => rfl⟩
  · exact ⟨.nilDeref, by simp only [if_neg hk], by simp [Exit.status], fun h => absurd h hk⟩

theorem creates_killEvents (cfg : Config) (ch : Child) : creates (killEvents cfg ch) = 0 := by
  unfold killEvents creates
  split <;> simp

theorem creates_append (xs ys : List Event) : creates (xs ++ ys) = creates xs + creates ys := by
  simp [creates, List.countP_append]

theorem watchdogTick_lost {σ : Type} (c : Client σ) (cfg : Config) (s : σ) (p : Proc)
    (h : (c.Get s p.lockpath).2.2 = some .ErrNodeExists ∨ (c.Get s p.lockpath).2.1 = "") :
    watchdogTick c cfg s p =
      ((c.Create (c.Get s p.lockpath).1 p.lockpath cfg.hostname FlagEphemeral).1,
        match (c.Create (c.Get s p.lockpath).1 p.lockpath cfg.hostname FlagEphemeral).2.2 with
        | some e => exitFatal cfg e.Error
            (p.emit [.sleep 1, .zkGet p.lockpath, .log "Lock disappeared. Try to re-aquire\n",
              .zkCreate p.lockpath cfg.hostname FlagEphemeral])
        | none => p.emit [.sleep 1, .zkGet p.lockpath,
            .log "Lock disappeared. Try to re-aquire\n",
            .zkCreate p.lockpath cfg.hostname FlagEphemeral,
            .log ("Lock " ++ p.lockpath ++ " re-aquired\n")]) := by
  simp only [watchdogTick, Proc.emit, if_pos h]
  cases (c.Create (c.Get s p.lockpath).1 p.lockpath cfg.hostname FlagEphemeral).2.2 <;> simp

theorem watchdogTick_present {σ : Type} (c : Client σ) (cfg : Config) (s : σ) (p : Proc)
    (h : ¬ ((c.Get s p.lockpath).2.2 = some .ErrNodeExists ∨ (c.Get s p.lockpath).2.1 = "")) :
    watchdogTick c cfg s p =
      ((c.Get s p.lockpath).1,
        if (c.Get s p.lockpath).2.1 ≠ cfg.hostname then
          exitFatal cfg (usurpedMsg p.lockpath (c.Get s p.lockpath).2.1)
            (p.emit ([.sleep 1, .zkGet p.lockpath] ++ errLog (c.Get s p.lockpath).2.2))
        else p.emit ([.sleep 1, .zkGet p.lockpath] ++ errLog (c.Get s p.lockpath).2.2)) := by
  simp only [watchdogTick, Proc.emit, if_neg h]
  cases (c.Get s p.lockpath).2.2 <;>
    by_cases hd : (c.Get s p.lockpath).2.1 = cfg.hostname <;> simp [hd, errLog]

theorem cmdKill_pc (cfg : Config) (p : Proc) : (cmdKill cfg p).pc = p.pc := by
  unfold cmdKill
  cases cfg.dontKill <;> cases hc : p.child <;> simp [Proc.emit, Proc.halt, hc]

theorem exitFatal_pc (cfg : Config) (str : String) (p : Proc) :
    (exitFatal cfg str p).pc = p.pc := by
  unfold exitFatal
  simp only
  split
  · exact cmdKill_pc cfg p
  · exact cmdKill_pc cfg p

theorem watchdogTick_pc {σ : Type} (c : Client σ) (cfg : Config) (s : σ) (p : Proc) :
    (watchdogTick c cfg s p).2.pc = p.pc := by
  by_cases hl : (c.Get s p.lockpath).2.2 = some .ErrNodeExists ∨ (c.Get s p.lockpath).2.1 = ""
  · rw [watchdogTick_lost c cfg s p hl]
    simp only
    split
    · rw [exitFatal_pc]; rfl
    · rfl
  · rw [watchdogTick_present c cfg s p hl]
    simp only
    split
    · rw [exitFatal_pc]; rfl
    · rfl

theorem onSignal_pc (cfg : Config) (sig : Signal) (p : Proc) : (onSignal cfg sig p).pc = p.pc := by
  unfold onSignal
  cases sig
  · simp only; rw [cmdKill_pc]; rfl
  · simp only
    split
    · rw [cmdKill_pc]; rfl
    · show (cmdKill cfg _).pc = _
      rw [cmdKill_pc]; rfl

/-! ## Lock acquisition -/

/-- C1: whatever the value of `-n`, when the create of the lock node (line 68)
answers "already exists", the process ends by `os.Exit(1)`; this step adds the
one create call and a log line to the trace and nothing else (no child is
started, no sleep, no second create), the outcome is the same for `-n=true` and
`-n=false`, and no later action changes the state. -/
theorem lock_held_exits_one {σ : Type} (c : Client σ) (cfg : Config) (s : σ) (p : Proc)
    (startOk : Bool) (hpc : p.pc = .createLock) (hlive : p.exit = none)
    (hheld : (c.Create s cfg.lockNode cfg.hostname FlagEphemeral).2.2 = some .ErrNodeExists) :
    (step c cfg (.main startOk) (s, p)).2.exit = some (.osExit 1)
    ∧ (step c cfg (.main startOk) (s, p)).2.trace
        = p.trace ++ [.zkCreate cfg.lockNode cfg.hostname FlagEphemeral,
            .log ("Lock " ++ (c.Create s cfg.lockNode cfg.hostname FlagEphemeral).2.1
              ++ " exists. Exit 1\n")]
    ∧ (step c cfg (.main startOk) (s, p)).2.child = p.child
    ∧ (spawned p.trace = false →
        spawned (step c cfg (.main startOk) (s, p)).2.trace = false)
    ∧ step c { cfg with nowait := true } (.main startOk) (s, p)
        = step c { cfg with nowait := false } (.main startOk) (s, p)
    ∧ ∀ acts, run c cfg acts (step c cfg (.main startOk) (s, p))
        = step c cfg (.main startOk) (s, p) := by
  have hstep : ∀ cfg2 : Config, cfg2.lockNode = cfg.lockNode → cfg2.hostname = cfg.hostname →
      step c cfg2 (.main startOk) (s, p)
        = ((c.Create s cfg.lockNode cfg.hostname FlagEphemeral).1,
            ((p.emit [.zkCreate cfg.lockNode cfg.hostname FlagEphemeral]).emit
              [.log ("Lock " ++ (c.Create s cfg.lockNode cfg.hostname FlagEphemeral).2.1
                ++ " exists. Exit 1\n")]).halt (.osExit 1)) := by
    intro cfg2 h1 h2
    simp only [step, hlive, mainStep, hpc, h1, h2, hheld, Proc.emit, if_true, ite_self]
  have h := hstep cfg rfl rfl
  refine ⟨?_, ?_, ?_, ?_, ?_, ?_⟩
  · rw [h]; rfl
  · rw [h]; simp [Proc.emit, Proc.halt]
  · rw [h]; rfl
  · intro hs
    rw [h]
    simp [Proc.emit, Proc.halt, spawned, List.any_append] at hs ⊢
    simpa [spawned] using hs
  · rw [hstep { cfg with nowait := true } rfl rfl, hstep { cfg with nowait := false } rfl rfl]
  · intro acts
    exact run_of_exited c cfg acts _ (.osExit 1) (by rw [h]; rfl)

/-- Witness of C1: `job1` is held by `host-b` when `host-a` reaches line 68. -/
theorem lock_held_exits_one_witness :
    (storeClient.Create heldStore demoCfg.lockNode demoCfg.hostname FlagEphemeral).2.2
        = some .ErrNodeExists
    ∧ (step storeClient demoCfg (.main true) (heldStore, atLock)).2.exit = some (.osExit 1)
    ∧ (step storeClient demoCfg (.main true) (heldStore, atLock)).2.trace
        = atLock.trace ++ [.zkCreate "/zklock/job1" "host-a" 1, .log "Lock  exists. Exit 1\n"]
    ∧ spawned (step storeClient demoCfg (.main true) (heldStore, atLock)).2.trace = false :=
  ⟨by decide,
    (lock_held_exits_one storeClient demoCfg heldStore atLock true rfl rfl (by decide)).1,
    by decide,
    (lock_held_exits_one storeClient demoCfg heldStore atLock true rfl rfl (by decide)).2.2.2.1
      (by decide)⟩

/-- The step taken at line 68 starts by calling the ephemeral create of the
lock node with the host name as content. -/
theorem createLock_calls_create {σ : Type} (c : Client σ) (cfg : Config) (s : σ) (p : Proc)
    (startOk : Bool) (hpc : p.pc = .createLock) (hlive : p.exit = none) :
    p.trace ++ [.zkCreate cfg.lockNode cfg.hostname FlagEphemeral]
      <+: (step c cfg (.main startOk) (s, p)).2.trace := by
  simp only [step, hlive, mainStep, hpc]
  cases h : (c.Create s cfg.lockNode cfg.hostname FlagEphemeral).2.2 with
  | none => simp [Proc.emit]
  | some e =>
    by_cases he : e = .ErrNodeExists
    · simp [Proc.emit, Proc.halt, he]
    · simp [Proc.emit, Proc.halt, he]

/-- C9: the root is ensured by an existence check followed, only when the root
is missing, by one create with flags 0 (persistent) and empty content.  A root
that exists, a create that succeeds and a create that answers "already exists"
all leave the process alive at line 68, whose next step calls the create of
the lock node.  Any error of the existence check, and any other error of the
create, ends the process by `panic` with no lock create and no child start in
the trace, and no later action changes that. -/
theorem ensure_root_cases {σ : Type} (c : Client σ) (cfg : Config) (s : σ) (p : Proc)
    (hpc : p.pc = .checkRoot) (hlive : p.exit = none) :
    let ex := c.Exists s cfg.prefixNode
    let cr := c.Create ex.1 cfg.prefixNode "" 0
    let r := ensureRoot c cfg (s, p)
    (ex.2.2 = none → ex.2.1 = true →
      r = (ex.1, { p.emit [.zkExists cfg.prefixNode] with pc := .createLock })
      ∧ ∀ b, r.2.trace ++ [.zkCreate cfg.lockNode cfg.hostname FlagEphemeral]
          <+: (step c cfg (.main b) r).2.trace)
    ∧ (ex.2.2 = none → ex.2.1 = false → (cr.2.2 = none ∨ cr.2.2 = some .ErrNodeExists) →
      r = (cr.1, { p.emit [.zkExists cfg.prefixNode, .zkCreate cfg.prefixNode "" 0] with
                    pc := .createLock })
      ∧ ∀ b, r.2.trace ++ [.zkCreate cfg.lockNode cfg.hostname FlagEphemeral]
          <+: (step c cfg (.main b) r).2.trace)
    ∧ (∀ e, ex.2.2 = some e →
      r = (ex.1, (p.emit [.zkExists cfg.prefixNode]).halt (.panicErr e.Error))
      ∧ ∀ acts, run c cfg acts r = r)
    ∧ (∀ e, ex.2.2 = none → ex.2.1 = false → cr.2.2 = some e → e ≠ .ErrNodeExists →
      r = (cr.1, { p.emit [.zkExists cfg.prefixNode, .zkCreate cfg.prefixNode "" 0] with
                    pc := .createRoot, exit := some (.panicErr e.Error) })
      ∧ ∀ acts, run c cfg acts r = r)
    ∧ FlagEphemeral ≠ 0 := by
  intro ex cr r
  refine ⟨?_, ?_, ?_, ?_, by decide⟩
  · intro h1 h2
    have hr : r = (ex.1, { p.emit [.zkExists cfg.prefixNode] with pc := .createLock }) := by
      simp only [r, ensureRoot, step, hlive, mainStep, hpc]
      simp [ex] at h1 h2
      simp [h1, h2, Proc.emit]
    refine ⟨hr, fun b => ?_⟩
    rw [hr]
    exact createLock_calls_create c cfg _ _ b rfl (by simpa [Proc.emit] using hlive)
  · intro h1 h2 h3
    have hr : r = (cr.1, { p.emit [.zkExists cfg.prefixNode, .zkCreate cfg.prefixNode "" 0] with
                    pc := .createLock }) := by
      simp only [r, ensureRoot, step, hlive, mainStep, hpc]
      simp [ex] at h1 h2
      simp [cr, ex] at h3
      rcases h3 with h3 | h3 <;> simp [h1, h2, h3, Proc.emit, mainStep, hlive]
    refine ⟨hr, fun b => ?_⟩
    rw [hr]
    exact createLock_calls_create c cfg _ _ b rfl (by simpa [Proc.emit] using hlive)
  · intro e h1
    have hr : r = (ex.1, (p.emit [.zkExists cfg.prefixNode]).halt (.panicErr e.Error)) := by
      simp only [r, ensureRoot, step, hlive, mainStep, hpc]
      simp [ex] at h1
      simp [h1, Proc.emit, Proc.halt, hpc]
    refine ⟨hr, fun acts => ?_⟩
    exact run_of_exited c cfg acts r (.panicErr e.Error) (by rw [hr]; rfl)
  · intro e h1 h2 h3 hne
    have hr : r = (cr.1, { p.emit [.zkExists cfg.prefixNode, .zkCreate cfg.prefixNode "" 0] with
                    pc := .createRoot, exit := some (.panicErr e.Error) }) := by
      simp only [r, ensureRoot, step, hlive, mainStep, hpc]
      simp [ex] at h1 h2
      simp [cr, ex] at h3
      simp [h1, h2, h3, hne, Proc.emit, Proc.halt, mainStep, hlive]
    refine ⟨hr, fun acts => ?_⟩
    exact run_of_exited c cfg acts r (.panicErr e.Error) (by rw [hr])

/-- Witness of C9: against an empty store the root is created and the process
reaches line 68. -/
theorem ensure_root_cases_witness :
    ensureRoot storeClient demoCfg ([], boot demoCfg none)
      = ([⟨"/zklock", "", false⟩],
          { (boot demoCfg none).emit [.zkExists "/zklock", .zkCreate "/zklock" "" 0] with
            pc := .createLock }) :=
  ((ensure_root_cases storeClient demoCfg [] (boot demoCfg none) rfl rfl).2.1
    rfl rfl (Or.inl rfl)).1

/-! ## The watchdog -/

/-- C4: in a live process, a watchdog iteration whose read fails with "does
not exist" (such a read of the client carrying no value) or returns an empty
value issues exactly one create, ephemeral, at the lock path kept from the
acquisition and with the host name as content.  When that create succeeds the
iteration ends with a log line, without entering `cmdKill`, and the process
stays alive; when it fails the iteration enters `cmdKill` and then ends the
process with a nonzero status, by `log.Fatal` of the error text whenever
`cmdKill` returns. -/
theorem lost_reacquires_once {σ : Type} (c : Client σ) (cfg : Config) (s : σ) (p : Proc)
    (data : String) (err : Option ZkError) (hlive : p.exit = none)
    (hget : (c.Get s p.lockpath).2 = (data, err))
    (hlost : err = some .ErrNoNode ∨ data = "")
    (hnodata : err = some .ErrNoNode → data = "") :
    creates (watchdogTick c cfg s p).2.trace = creates p.trace + 1
    ∧ p.trace ++ [.sleep 1, .zkGet p.lockpath, .log "Lock disappeared. Try to re-aquire\n",
          .zkCreate p.lockpath cfg.hostname FlagEphemeral]
        <+: (watchdogTick c cfg s p).2.trace
    ∧ ((c.Create (c.Get s p.lockpath).1 p.lockpath cfg.hostname FlagEphemeral).2.2 = none →
        (watchdogTick c cfg s p).2
          = p.emit [.sleep 1, .zkGet p.lockpath, .log "Lock disappeared. Try to re-aquire\n",
              .zkCreate p.lockpath cfg.hostname FlagEphemeral,
              .log ("Lock " ++ p.lockpath ++ " re-aquired\n")]
        ∧ (watchdogTick c cfg s p).2.exit = none
        ∧ killRequests (watchdogTick c cfg s p).2.trace = killRequests p.trace)
    ∧ (∀ e, (c.Create (c.Get s p.lockpath).1 p.lockpath cfg.hostname FlagEphemeral).2.2 = some e →
        (watchdogTick c cfg s p).2.trace
          = p.trace ++ [.sleep 1, .zkGet p.lockpath, .log "Lock disappeared. Try to re-aquire\n",
              .zkCreate p.lockpath cfg.hostname FlagEphemeral] ++ killEvents cfg p.child
        ∧ ∃ x, (watchdogTick c cfg s p).2.exit = some x ∧ x.status ≠ 0
          ∧ ((cfg.dontKill = true ∨ p.child ≠ .absent) → x = .logFatal e.Error)) := by
  have h1 : (c.Get s p.lockpath).2.1 = data := by rw [hget]
  have hempty : data = "" := by
    rcases hlost with h | h
    · exact hnodata h
    · exact h
  rw [watchdogTick_lost c cfg s p (Or.inr (by rw [h1]; exact hempty))]
  cases hc : (c.Create (c.Get s p.lockpath).1 p.lockpath cfg.hostname FlagEphemeral).2.2 with
  | none =>
    refine ⟨?_, ?_, ?_, ?_⟩
    · simp [Proc.emit, creates, List.countP_append, List.countP_cons]
    · simp [Proc.emit]
    · intro _
      refine ⟨rfl, by simpa [Proc.emit] using hlive, ?_⟩
      simp [Proc.emit, killRequests, List.count_append, List.count_cons]
    · intro e he
      cases he
  | some e =>
    have hl : (p.emit [.sleep 1, .zkGet p.lockpath, .log "Lock disappeared. Try to re-aquire\n",
        .zkCreate p.lockpath cfg.hostname FlagEphemeral]).exit = none := by
      simpa [Proc.emit] using hlive
    have ht := exitFatal_trace cfg e.Error _ hl
    simp only [ht]
    refine ⟨?_, ?_, ?_, ?_⟩
    · rw [creates_append, creates_killEvents]
      simp [Proc.emit, creates, List.countP_append, List.countP_cons]
    · simp [Proc.emit]
    · intro h
      cases h
    · intro e2 he2
      cases he2
      exact ⟨by simp [Proc.emit], exitFatal_exit cfg _ _ hl⟩

/-- C6 (as amended): for every non-empty host name, a watchdog iteration whose
read succeeds with a value equal to the host name does nothing beyond the read
itself: no create, no entry into `cmdKill`, and the process state is otherwise
unchanged. -/
theorem own_value_no_action {σ : Type} (c : Client σ) (cfg : Config) (s : σ) (p : Proc)
    (hhost : cfg.hostname ≠ "")
    (hget : (c.Get s p.lockpath).2 = (cfg.hostname, none)) :
    watchdogTick c cfg s p = ((c.Get s p.lockpath).1, p.emit [.sleep 1, .zkGet p.lockpath])
    ∧ creates (watchdogTick c cfg s p).2.trace = creates p.trace
    ∧ killRequests (watchdogTick c cfg s p).2.trace = killRequests p.trace
    ∧ (watchdogTick c cfg s p).2.exit = p.exit
    ∧ (watchdogTick c cfg s p).2.child = p.child := by
  have h1 : (c.Get s p.lockpath).2.1 = cfg.hostname := by rw [hget]
  have h2 : (c.Get s p.lockpath).2.2 = none := by rw [hget]
  have hnl : ¬ ((c.Get s p.lockpath).2.2 = some .ErrNodeExists ∨ (c.Get s p.lockpath).2.1 = "") := by
    rw [h1, h2]; simp [hhost]
  have ht : watchdogTick c cfg s p
      = ((c.Get s p.lockpath).1, p.emit [.sleep 1, .zkGet p.lockpath]) := by
    rw [watchdogTick_present c cfg s p hnl, h1, h2]
    simp [errLog]
  rw [ht]
  refine ⟨rfl, ?_, ?_, rfl, rfl⟩
  · simp [Proc.emit, creates, List.countP_append, List.countP_cons]
  · simp [Proc.emit, killRequests, List.count_append, List.count_cons]

/-- Witness of C4: the lock node of `host-a` is gone and the read answers
"does not exist"; the one create succeeds. -/
theorem lost_reacquires_once_witness :
    (storeClient.Get lostStore demoProc.lockpath).2 = ("", some .ErrNoNode)
    ∧ creates (watchdogTick storeClient demoCfg lostStore demoProc).2.trace
        = creates demoProc.trace + 1
    ∧ (watchdogTick storeClient demoCfg lostStore demoProc).2.exit = none :=
  ⟨rfl,
    (lost_reacquires_once storeClient demoCfg lostStore demoProc "" (some .ErrNoNode) rfl rfl
      (Or.inl rfl) (fun _ => rfl)).1,
    by decide⟩

/-- Witness of C6 as amended: the lock node holds `host-a`. -/
theorem own_value_no_action_witness :
    watchdogTick storeClient demoCfg ownStore demoProc
      = (ownStore, demoProc.emit [.sleep 1, .zkGet "/zklock/job1"]) :=
  (own_value_no_action storeClient demoCfg ownStore demoProc (by decide) rfl).1

/-- C6 fails for the empty host name.  The process of `noNameCfg` acquires
`job1` against an empty store and starts its child; the first read of the
watchdog then succeeds with the value `""`, equal to the host name, and the
iteration nevertheless issues a create, kills the child and ends the process. -/
theorem own_value_empty_host_acts :
    (storeClient.Get (run storeClient noNameCfg startupActs ([], boot noNameCfg none)).1
        (run storeClient noNameCfg startupActs ([], boot noNameCfg none)).2.lockpath).2
      = (noNameCfg.hostname, none)
    ∧ (run storeClient noNameCfg startupActs ([], boot noNameCfg none)).2.exit = none
    ∧ creates (run storeClient noNameCfg (startupActs ++ [.tick]) ([], boot noNameCfg none)).2.trace
      = creates (run storeClient noNameCfg startupActs ([], boot noNameCfg none)).2.trace + 1
    ∧ Event.kill ∈ (run storeClient noNameCfg (startupActs ++ [.tick])
        ([], boot noNameCfg none)).2.trace
    ∧ (run storeClient noNameCfg (startupActs ++ [.tick]) ([], boot noNameCfg none)).2.exit
      = some (.logFatal "zk: node already exists") := by
  decide

/-- C5 fails on a failed read.  The connection is down while `host-a` holds
the lock and its child runs: the read of the watchdog fails with the
connection error and carries no value.  The iteration does not stop at a log
line: the empty value sends it into the branch of line 119, it issues a
create, and as the create fails too it kills the child and ends the process. -/
theorem read_error_reacquires :
    (flakyClient.Get () demoProc.lockpath).2 = ("", some (.other "zk: connection closed"))
    ∧ watchdogTick flakyClient demoCfg () demoProc
      = ((), ⟨.wait, "/zklock/job1", .killed, some (.logFatal "zk: connection closed"),
          demoProc.trace ++ [.sleep 1, .zkGet "/zklock/job1",
            .log "Lock disappeared. Try to re-aquire\n",
            .zkCreate "/zklock/job1" "host-a" 1, .cmdKill, .kill]⟩)
    ∧ creates (watchdogTick flakyClient demoCfg () demoProc).2.trace
        = creates demoProc.trace + 1
    ∧ ((watchdogTick flakyClient demoCfg () demoProc).2.exit.map Exit.status) = some 1 := by
  decide

/-! ## Signals and termination -/

/-- The two signals in a live process whose goroutines run.  On `os.Interrupt`
the signal goroutine logs and calls `cmdKill`, and has no exit of its own:
whenever `cmdKill` returns (`-k`, or `cmd.Process` set) the process stays
alive at the same program point, and from the wait of `cmd.Run()`, once the
child has exited, `main` goes through the post-delay (when `-a` is positive)
and returns.  On `SIGTERM` the signal goroutine logs, calls `cmdKill` and the
process ends with a nonzero status, by `os.Exit(1)` whenever `cmdKill`
returns and by the nil dereference otherwise; no later action adds anything. -/
theorem signal_urgency {σ : Type} (c : Client σ) (cfg : Config) (s : σ) (p : Proc)
    (hstarted : p.pc.tasksStarted = true) (hlive : p.exit = none) :
    step c cfg (.signal .Interrupt) (s, p)
        = (s, cmdKill cfg (p.emit [.log "SIGINT received\n"]))
    ∧ ((cfg.dontKill = true ∨ p.child ≠ .absent) →
        step c cfg (.signal .Interrupt) (s, p)
          = (s, { p with
              trace := p.trace ++ [.log "SIGINT received\n"] ++ killEvents cfg p.child
              child := if cfg.dontKill = true then p.child else p.child.afterKill }))
    ∧ (p.pc = .wait → (p.child = .running ∨ p.child = .killed) → ∀ b1 b2,
        (run c cfg [.signal .Interrupt, .childExit, .main b1, .main b2] (s, p)).2.exit
          = some .returned
        ∧ (run c cfg [.signal .Interrupt, .childExit, .main b1, .main b2] (s, p)).2.trace
          = p.trace ++ [.log "SIGINT received\n"] ++ killEvents cfg p.child
            ++ (if cfg.sleepAfter > 0 then
                  [.log ("Sleep " ++ toString cfg.sleepAfter ++ " seconds\n"),
                    .sleepFor (seconds cfg.sleepAfter)]
                else [])
            ++ [.log "done\n"])
    ∧ step c cfg (.signal .SIGTERM) (s, p)
        = (s, { p with
            trace := p.trace ++ [.log "SIGTERM received\n"] ++ killEvents cfg p.child
            child := if cfg.dontKill = true then p.child else p.child.afterKill
            exit := some (if cfg.dontKill = true ∨ p.child ≠ .absent then .osExit 1
                          else .nilDeref) })
    ∧ (∃ x, (step c cfg (.signal .SIGTERM) (s, p)).2.exit = some x ∧ x.status ≠ 0
        ∧ ((cfg.dontKill = true ∨ p.child ≠ .absent) → x = .osExit 1 ∧ x.status = 1))
    ∧ ∀ acts, run c cfg acts (step c cfg (.signal .SIGTERM) (s, p))
        = step c cfg (.signal .SIGTERM) (s, p) := by
  have hraw : step c cfg (.signal .Interrupt) (s, p)
      = (s, cmdKill cfg (p.emit [.log "SIGINT received\n"])) := by
    simp only [step, hlive, hstarted, if_true, onSignal]
  have hint : (cfg.dontKill = true ∨ p.child ≠ .absent) →
      step c cfg (.signal .Interrupt) (s, p)
        = (s, { p with
            trace := p.trace ++ [.log "SIGINT received\n"] ++ killEvents cfg p.child
            child := if cfg.dontKill = true then p.child else p.child.afterKill }) := by
    intro hchild
    rw [hraw, cmdKill_spec cfg _ (by simpa [Proc.emit] using hlive)]
    simp [Proc.emit, hchild, hlive]
  have hterm : step c cfg (.signal .SIGTERM) (s, p)
        = (s, { p with
            trace := p.trace ++ [.log "SIGTERM received\n"] ++ killEvents cfg p.child
            child := if cfg.dontKill = true then p.child else p.child.afterKill
            exit := some (if cfg.dontKill = true ∨ p.child ≠ .absent then .osExit 1
                          else .nilDeref) }) := by
    simp only [step, hlive, hstarted, if_true, onSignal]
    rw [cmdKill_spec cfg _ (by simpa [Proc.emit] using hlive)]
    by_cases hchild : cfg.dontKill = true ∨ p.child ≠ .absent
    · simp [Proc.emit, Proc.halt, hchild]
    · simp [Proc.emit, Proc.halt, hchild]
  refine ⟨hraw, hint, ?_, hterm, ?_, ?_⟩
  · intro hpc hrun b1 b2
    have hchild : cfg.dontKill = true ∨ p.child ≠ .absent := by
      rcases hrun with h | h <;> rw [h] <;> exact Or.inr (by decide)
    simp only [run, List.foldl_cons, List.foldl_nil, hint hchild]
    obtain ⟨pc, lp, ch, ex, tr⟩ := p
    simp only at hpc hlive hrun
    subst hpc hlive
    by_cases hk : cfg.dontKill = true <;> by_cases hs : cfg.sleepAfter > 0 <;>
      rcases hrun with h | h <;> subst h <;>
      simp [step, childExit, mainStep, Proc.emit, Proc.halt, Child.afterKill, hk, hs, killEvents]
  · rw [hterm]
    by_cases hchild : cfg.dontKill = true ∨ p.child ≠ .absent
    · exact ⟨.osExit 1, by simp only [if_pos hchild], by simp [Exit.status],
        fun _ => ⟨rfl, rfl⟩⟩
    · exact ⟨.nilDeref, by simp only [if_neg hchild], by simp [Exit.status],
        fun h => absurd h hchild⟩
  · intro acts
    by_cases hchild : cfg.dontKill = true ∨ p.child ≠ .absent
    · exact run_of_exited c cfg acts _ (.osExit 1) (by rw [hterm]; simp only [if_pos hchild])
    · exact run_of_exited c cfg acts _ .nilDeref (by rw [hterm]; simp only [if_neg hchild])

/-- C7 fails on the code, by the defect of C10.  Without `-k`, the process of
`demoCfg` has created its child inside `cmd.Run()` and `cmd.Process` is still
nil.  An `os.Interrupt` received there ends the process by the nil
dereference in `cmdKill`: no kill is issued, `main` never reaches the
post-delay or the end of `main`, whatever runs afterwards.  A `SIGTERM`
received there ends the process with status 2, not 1.  The same happens during
the post-delay of `delayCfg` when the child could not be started. -/
theorem signal_before_handle :
    (run storeClient demoCfg racedActs ([], boot demoCfg none)).2.pc = .started
    ∧ (run storeClient demoCfg racedActs ([], boot demoCfg none)).2.pc.tasksStarted = true
    ∧ (run storeClient demoCfg racedActs ([], boot demoCfg none)).2.exit = none
    ∧ spawned (run storeClient demoCfg racedActs ([], boot demoCfg none)).2.trace = true
    ∧ (run storeClient demoCfg racedActs ([], boot demoCfg none)).2.child = .absent
    ∧ (run storeClient demoCfg (racedActs ++ [.signal .Interrupt])
        ([], boot demoCfg none)).2.exit = some .nilDeref
    ∧ Event.kill ∉ (run storeClient demoCfg (racedActs ++ [.signal .Interrupt])
        ([], boot demoCfg none)).2.trace
    ∧ run storeClient demoCfg
        (racedActs ++ [.signal .Interrupt, .main true, .childExit, .main true, .main true])
        ([], boot demoCfg none)
      = run storeClient demoCfg (racedActs ++ [.signal .Interrupt]) ([], boot demoCfg none)
    ∧ Event.log "done\n" ∉ (run storeClient demoCfg
        (racedActs ++ [.signal .Interrupt, .main true, .childExit, .main true, .main true])
        ([], boot demoCfg none)).2.trace
    ∧ (run storeClient demoCfg (racedActs ++ [.signal .SIGTERM])
        ([], boot demoCfg none)).2.exit.map Exit.status = some 2
    ∧ (run storeClient delayCfg (launchActs ++ [.main false, .main true])
        ([], boot delayCfg none)).2.pc = .sleeping
    ∧ (run storeClient delayCfg (launchActs ++ [.main false, .main true, .signal .Interrupt])
        ([], boot delayCfg none)).2.exit = some .nilDeref
    ∧ Event.log "done\n" ∉ (run storeClient delayCfg
        (launchActs ++ [.main false, .main true, .signal .Interrupt, .main true])
        ([], boot delayCfg none)).2.trace := by
  decide

/-- The fatal paths with and without `-k`.  With `-k`, every call of `cmdKill`
only records the call: no kill is issued and the child handle, the program
point and the exit state are as before; the two fatal paths of the watchdog (a
foreign value in the lock node, a failed create after the lock was lost) still
end a live process by `log.Fatal` and the `SIGTERM` path by `os.Exit(1)`, all
with status 1 and with the child untouched.  Without `-k` and with
`cmd.Process` set, each of these paths calls `cmd.Process.Kill()` before the
process ends with status 1. -/
theorem dont_kill_frame {σ : Type} (c : Client σ) (cfg : Config) (s : σ) (p : Proc)
    (hlive : p.exit = none) :
    (cfg.dontKill = true →
      (∀ q : Proc, cmdKill cfg q = q.emit [.cmdKill])
      ∧ (∀ data err, (c.Get s p.lockpath).2 = (data, err) → data ≠ "" → data ≠ cfg.hostname →
          err ≠ some .ErrNodeExists →
          (watchdogTick c cfg s p).2
            = { p with
                trace := p.trace ++ [.sleep 1, .zkGet p.lockpath] ++ errLog err ++ [.cmdKill]
                exit := some (.logFatal (usurpedMsg p.lockpath data)) })
      ∧ (∀ e, ((c.Get s p.lockpath).2.2 = some .ErrNodeExists ∨ (c.Get s p.lockpath).2.1 = "") →
          (c.Create (c.Get s p.lockpath).1 p.lockpath cfg.hostname FlagEphemeral).2.2 = some e →
          (watchdogTick c cfg s p).2
            = { p with
                trace := p.trace ++ [.sleep 1, .zkGet p.lockpath,
                  .log "Lock disappeared. Try to re-aquire\n",
                  .zkCreate p.lockpath cfg.hostname FlagEphemeral, .cmdKill]
                exit := some (.logFatal e.Error) })
      ∧ onSignal cfg .SIGTERM p
          = { p with
              trace := p.trace ++ [.log "SIGTERM received\n", .cmdKill]
              exit := some (.osExit 1) })
    ∧ (cfg.dontKill = false → p.child ≠ .absent →
      cmdKill cfg p = { p with trace := p.trace ++ [.cmdKill, .kill], child := p.child.afterKill }
      ∧ (∀ data err, (c.Get s p.lockpath).2 = (data, err) → data ≠ "" → data ≠ cfg.hostname →
          err ≠ some .ErrNodeExists →
          (watchdogTick c cfg s p).2
            = { p with
                trace := p.trace ++ [.sleep 1, .zkGet p.lockpath] ++ errLog err
                  ++ [.cmdKill, .kill]
                child := p.child.afterKill
                exit := some (.logFatal (usurpedMsg p.lockpath data)) })
      ∧ (∀ e, ((c.Get s p.lockpath).2.2 = some .ErrNodeExists ∨ (c.Get s p.lockpath).2.1 = "") →
          (c.Create (c.Get s p.lockpath).1 p.lockpath cfg.hostname FlagEphemeral).2.2 = some e →
          (watchdogTick c cfg s p).2
            = { p with
                trace := p.trace ++ [.sleep 1, .zkGet p.lockpath,
                  .log "Lock disappeared. Try to re-aquire\n",
                  .zkCreate p.lockpath cfg.hostname FlagEphemeral, .cmdKill, .kill]
                child := p.child.afterKill
                exit := some (.logFatal e.Error) })
      ∧ onSignal cfg .SIGTERM p
          = { p with
              trace := p.trace ++ [.log "SIGTERM received\n", .cmdKill, .kill]
              child := p.child.afterKill
              exit := some (.osExit 1) })
    ∧ (∀ msg, (Exit.logFatal msg).status = 1) ∧ (Exit.osExit 1).status = 1 := by
  have husurp : ∀ data err, (c.Get s p.lockpath).2 = (data, err) → data ≠ "" →
      data ≠ cfg.hostname → err ≠ some .ErrNodeExists →
      (watchdogTick c cfg s p).2
        = exitFatal cfg (usurpedMsg p.lockpath data)
            (p.emit ([.sleep 1, .zkGet p.lockpath] ++ errLog err)) := by
    intro data err hget hval hdiff herr
    have h1 : (c.Get s p.lockpath).2.1 = data := by rw [hget]
    have h2 : (c.Get s p.lockpath).2.2 = err := by rw [hget]
    rw [watchdogTick_present c cfg s p (by rw [h1, h2]; exact not_or.mpr ⟨herr, hval⟩),
      h1, h2, if_pos hdiff]
  have hlost : ∀ e,
      ((c.Get s p.lockpath).2.2 = some .ErrNodeExists ∨ (c.Get s p.lockpath).2.1 = "") →
      (c.Create (c.Get s p.lockpath).1 p.lockpath cfg.hostname FlagEphemeral).2.2 = some e →
      (watchdogTick c cfg s p).2
        = exitFatal cfg e.Error
            (p.emit [.sleep 1, .zkGet p.lockpath, .log "Lock disappeared. Try to re-aquire\n",
              .zkCreate p.lockpath cfg.hostname FlagEphemeral]) := by
    intro e hd hc
    rw [watchdogTick_lost c cfg s p hd, hc]
  refine ⟨fun hk => ⟨?_, ?_, ?_, ?_⟩, fun hk hch => ⟨?_, ?_, ?_, ?_⟩, fun _ => rfl, rfl⟩
  · intro q
    simp [cmdKill, hk]
  · intro data err hget hval hdiff herr
    rw [husurp data err hget hval hdiff herr,
      exitFatal_spec cfg _ _ (by simpa [Proc.emit] using hlive)]
    simp [Proc.emit, hk, killEvents]
  · intro e hd hc
    rw [hlost e hd hc, exitFatal_spec cfg _ _ (by simpa [Proc.emit] using hlive)]
    simp [Proc.emit, hk, killEvents]
  · simp only [onSignal]
    rw [cmdKill_spec cfg _ (by simpa [Proc.emit] using hlive)]
    simp [Proc.emit, Proc.halt, hk, killEvents]
  · rw [cmdKill_spec cfg _ hlive]
    simp [hk, hch, killEvents, hlive]
  · intro data err hget hval hdiff herr
    rw [husurp data err hget hval hdiff herr,
      exitFatal_spec cfg _ _ (by simpa [Proc.emit] using hlive)]
    simp [Proc.emit, hk, hch, killEvents]
  · intro e hd hc
    rw [hlost e hd hc, exitFatal_spec cfg _ _ (by simpa [Proc.emit] using hlive)]
    simp [Proc.emit, hk, hch, killEvents]
  · simp only [onSignal]
    rw [cmdKill_spec cfg _ (by simpa [Proc.emit] using hlive)]
    simp [Proc.emit, Proc.halt, hk, hch, killEvents]

/-- C8 fails on the code in its half without `-k`, by the defect of C10.  The
process of `demoCfg` has created its child inside `cmd.Run()` and
`cmd.Process` is still nil.  Each of the three paths then enters `cmdKill` and
the process ends there by the nil dereference, with status 2: a foreign value
in the lock node, a failed create after a failed read, and `SIGTERM`.  No kill
is issued and the child that was started is left running. -/
theorem unset_paths_skip_kill :
    demoCfg.dontKill = false
    ∧ spawned (run storeClient demoCfg racedActs ([], boot demoCfg none)).2.trace = true
    ∧ (run storeClient demoCfg racedActs ([], boot demoCfg none)).2.child = .absent
    ∧ (step storeClient demoCfg .tick
        (heldStore, (run storeClient demoCfg racedActs ([], boot demoCfg none)).2)).2
      = { (run storeClient demoCfg racedActs ([], boot demoCfg none)).2 with
          trace := (run storeClient demoCfg racedActs ([], boot demoCfg none)).2.trace
            ++ [.sleep 1, .zkGet "/zklock/job1", .cmdKill]
          exit := some .nilDeref }
    ∧ (step flakyClient demoCfg .tick
        ((), (run storeClient demoCfg racedActs ([], boot demoCfg none)).2)).2
      = { (run storeClient demoCfg racedActs ([], boot demoCfg none)).2 with
          trace := (run storeClient demoCfg racedActs ([], boot demoCfg none)).2.trace
            ++ [.sleep 1, .zkGet "/zklock/job1", .log "Lock disappeared. Try to re-aquire\n",
              .zkCreate "/zklock/job1" "host-a" 1, .cmdKill]
          exit := some .nilDeref }
    ∧ (run storeClient demoCfg (racedActs ++ [.signal .SIGTERM]) ([], boot demoCfg none)).2
      = { (run storeClient demoCfg racedActs ([], boot demoCfg none)).2 with
          trace := (run storeClient demoCfg racedActs ([], boot demoCfg none)).2.trace
            ++ [.log "SIGTERM received\n", .cmdKill]
          exit := some .nilDeref }
    ∧ Exit.nilDeref.status = 2 := by
  decide

/-- In every step the goroutines are ahead of the child: a state in which
`cmd.Process` is nil or both goroutines run is followed by such a state. -/
theorem step_tasks_first {σ : Type} (c : Client σ) (cfg : Config) (a : Action) (st : σ × Proc)
    (h : st.2.child = .absent ∨ st.2.pc.tasksStarted = true) :
    (step c cfg a st).2.child = .absent ∨ (step c cfg a st).2.pc.tasksStarted = true := by
  obtain ⟨s, p⟩ := st
  cases hx : p.exit with
  | some e => rw [step_of_exited c cfg a (s, p) e hx]; exact h
  | none =>
    cases a with
    | main b =>
      simp only [step, hx, mainStep]
      obtain ⟨pc, lp, ch, ex, tr⟩ := p
      simp only at h ⊢
      cases pc <;> simp only [MainPc.tasksStarted] at h ⊢ <;> (repeat' split) <;>
        simp [Proc.emit, Proc.halt, MainPc.tasksStarted] <;> simpa using h
    | childExit =>
      simp only [step, hx, childExit]
      obtain ⟨pc, lp, ch, ex, tr⟩ := p
      simp only at h ⊢
      cases ch <;> cases pc <;> simp [MainPc.tasksStarted] at h ⊢
    | signal sig =>
      simp only [step, hx]
      split
      · rename_i ht
        exact Or.inr (by simp only; rw [onSignal_pc]; exact ht)
      · exact h
    | tick =>
      simp only [step, hx]
      split
      · rename_i ht
        exact Or.inr (by rw [watchdogTick_pc]; exact ht)
      · exact h

/-- In every execution from line 56 the goroutines are launched before the
child is started: whenever `cmd.Process` is set, both goroutines are running. -/
theorem run_tasks_first {σ : Type} (c : Client σ) (cfg : Config) (acts : List Action) (s : σ)
    (connectErr : Option ZkError) :
    (run c cfg acts (s, boot cfg connectErr)).2.child = .absent
    ∨ (run c cfg acts (s, boot cfg connectErr)).2.pc.tasksStarted = true := by
  have hgen : ∀ (acts : List Action) (st : σ × Proc),
      (st.2.child = .absent ∨ st.2.pc.tasksStarted = true) →
      ((run c cfg acts st).2.child = .absent ∨ (run c cfg acts st).2.pc.tasksStarted = true) := by
    intro acts
    induction acts with
    | nil => exact fun st h => h
    | cons a acts ih => exact fun st h => ih _ (step_tasks_first c cfg a st h)
  refine hgen acts _ (Or.inl ?_)
  unfold boot
  simp only
  split
  · rfl
  · split <;> split <;> rfl

/-- C10 fails on the code: the goroutines are launched on lines 100 and 115,
before `cmd.Run()` on line 137 starts the child.  After the four steps of
`main` up to line 137 both goroutines run, no child was started and
`cmd.Process` is nil; an `os.Interrupt` received there makes the signal
goroutine enter `cmdKill`, which dereferences the nil handle.  The same
happens in the watchdog when the child could not be started and the lock node
is found with a foreign value during the post-delay. -/
theorem kill_before_child_start :
    (run storeClient demoCfg launchActs ([], boot demoCfg none)).2.pc = .run
    ∧ (run storeClient demoCfg launchActs ([], boot demoCfg none)).2.pc.tasksStarted = true
    ∧ (run storeClient demoCfg launchActs ([], boot demoCfg none)).2.exit = none
    ∧ (run storeClient demoCfg launchActs ([], boot demoCfg none)).2.child = .absent
    ∧ spawned (run storeClient demoCfg launchActs ([], boot demoCfg none)).2.trace = false
    ∧ (run storeClient demoCfg (launchActs ++ [.signal .Interrupt]) ([], boot demoCfg none)).2
      = ⟨.run, "/zklock/job1", .absent, some .nilDeref,
          [.log "Args: [job1 sleep 5]\n", .connect "localhost" 4000, .zkExists "/zklock",
            .zkCreate "/zklock" "" 0, .zkCreate "/zklock/job1" "host-a" 1,
            .log "Lock /zklock/job1 aquired\n", .log "Run: [sleep 5]\n", .goSignals, .goWatchdog,
            .log "SIGINT received\n", .cmdKill]⟩
    ∧ (run storeClient delayCfg (launchActs ++ [.main false, .main true])
        ([], boot delayCfg none)).2.pc = .sleeping
    ∧ (step storeClient delayCfg .tick
        (heldStore, (run storeClient delayCfg (launchActs ++ [.main false, .main true])
          ([], boot delayCfg none)).2)).2.exit = some .nilDeref := by
  decide

/-! ## Mutual exclusion -/

theorem mainStep_fst {σ : Type} (c : Client σ) (cfg : Config) (b : Bool) (s : σ) (p : Proc) :
    (mainStep c cfg b s p).1 =
      match p.pc with
      | .checkRoot => (c.Exists s cfg.prefixNode).1
      | .createRoot => (c.Create s cfg.prefixNode "" 0).1
      | .createLock => (c.Create s cfg.lockNode cfg.hostname FlagEphemeral).1
      | _ => s := by
  unfold mainStep
  cases p.pc <;> simp only <;> (repeat' split) <;> rfl

theorem store_create_mono (st : Store) (q d : String) (fl : Nat) (path : String)
    (h : Store.has st path = true) : Store.has (storeClient.Create st q d fl).1 path = true := by
  unfold storeClient
  simp only
  split
  · exact h
  · simp [Store.has, List.any_append] at h ⊢
    exact Or.inl h

theorem store_get_fst (st : Store) (q : String) : (storeClient.Get st q).1 = st := by
  unfold storeClient
  simp only
  split <;> rfl

theorem step_store_mono (cfg : Config) (a : Action) (st : Store) (p : Proc) (path : String)
    (h : Store.has st path = true) :
    Store.has (step storeClient cfg a (st, p)).1 path = true := by
  cases hx : p.exit with
  | some e => rw [step_of_exited storeClient cfg a (st, p) e hx]; exact h
  | none =>
    cases a with
    | main b =>
      simp only [step, hx]
      rw [mainStep_fst]
      cases p.pc <;> simp only <;> first | exact h | exact store_create_mono _ _ _ _ _ h
    | childExit => simpa only [step, hx] using h
    | signal sig =>
      simp only [step, hx]
      split <;> exact h
    | tick =>
      simp only [step, hx]
      split
      · by_cases hl : (storeClient.Get st p.lockpath).2.2 = some .ErrNodeExists
            ∨ (storeClient.Get st p.lockpath).2.1 = ""
        · rw [watchdogTick_lost storeClient cfg st p hl]
          exact store_create_mono _ _ _ _ _ (by rw [store_get_fst]; exact h)
        · rw [watchdogTick_present storeClient cfg st p hl]
          simp only [store_get_fst]
          exact h
      · exact h

theorem step_acquired {σ : Type} (c : Client σ) (cfg : Config) (a : Action) (st : σ × Proc)
    (h : st.2.pc.acquired = true) : (step c cfg a st).2.pc.acquired = true := by
  obtain ⟨s, p⟩ := st
  cases hx : p.exit with
  | some e => rw [step_of_exited c cfg a (s, p) e hx]; exact h
  | none =>
    cases a with
    | main b =>
      simp only [step, hx, mainStep]
      obtain ⟨pc, lp, ch, ex, tr⟩ := p
      simp only at h ⊢
      cases pc <;> simp [MainPc.acquired] at h <;> simp only <;> (repeat' split) <;> rfl
    | childExit =>
      simp only [step, hx, childExit]
      obtain ⟨pc, lp, ch, ex, tr⟩ := p
      simp only at h ⊢
      cases ch <;> simp only <;> first | exact h | (split <;> first | rfl | exact h)
    | signal sig =>
      simp only [step, hx]
      split
      · simp only; rw [onSignal_pc]; exact h
      · exact h
    | tick =>
      simp only [step, hx]
      split
      · rw [watchdogTick_pc]; exact h
      · exact h

theorem tasksStarted_of_not_acquired (pc : MainPc) (h : pc.acquired = false) :
    pc.tasksStarted = false := by
  cases pc <;> simp [MainPc.acquired] at h <;> rfl

theorem store_create_held (st : Store) (q d : String) (fl : Nat)
    (h : Store.has st q = true) :
    storeClient.Create st q d fl = (st, ("", some .ErrNodeExists)) := by
  simp only [storeClient, h, if_true]

theorem store_create_free (st : Store) (q d : String) (fl : Nat)
    (h : Store.has st q = false) :
    storeClient.Create st q d fl = (st ++ [⟨q, d, fl == FlagEphemeral⟩], (q, none)) := by
  simp [storeClient, h]

theorem store_has_added (st : Store) (q d : String) (e : Bool) :
    Store.has (st ++ [⟨q, d, e⟩]) q = true := by
  simp [Store.has, List.any_append]

theorem step_startingUp (cfg : Config) (a : Action) (st : Store) (p : Proc)
    (h : p.startingUp) :
    (step storeClient cfg a (st, p)).2.startingUp
    ∨ (step storeClient cfg a (st, p)).2.denied
    ∨ ((step storeClient cfg a (st, p)).2.pc.acquired = true
        ∧ Store.has st cfg.lockNode = false
        ∧ Store.has (step storeClient cfg a (st, p)).1 cfg.lockNode = true) := by
  obtain ⟨hacq, hex, hatt, hsp⟩ := h
  cases a with
  | main b =>
    obtain ⟨pc, lp, ch, ex, tr⟩ := p
    simp only at hacq hex hatt hsp
    subst hex
    cases pc <;> simp [MainPc.acquired] at hacq
    · left
      simp only [step, mainStep, storeClient, Proc.emit]
      by_cases hr : Store.has st cfg.prefixNode = true <;>
        simp [hr, Proc.startingUp, MainPc.acquired, attempted, spawned, List.any_append] <;>
        exact ⟨by simpa [attempted] using hatt, by simpa [spawned] using hsp⟩
    · left
      simp only [step, mainStep, storeClient, Proc.emit]
      by_cases hr : Store.has st cfg.prefixNode = true <;>
        simp [hr, Proc.startingUp, MainPc.acquired, attempted, spawned, List.any_append,
          FlagEphemeral] <;>
        exact ⟨by simpa [attempted, FlagEphemeral] using hatt, by simpa [spawned] using hsp⟩
    · by_cases hr : Store.has st cfg.lockNode = true
      · right; left
        have hc := store_create_held st cfg.lockNode cfg.hostname FlagEphemeral hr
        simp only [step, mainStep, hc, Proc.emit, Proc.halt]
        simp [Proc.denied, attempted, spawned, List.any_append]
        simpa [spawned] using hsp
      · right; right
        have hr2 : Store.has st cfg.lockNode = false := by simpa using hr
        have hc := store_create_free st cfg.lockNode cfg.hostname FlagEphemeral hr2
        simp only [step, mainStep, hc, Proc.emit, Proc.halt]
        exact ⟨rfl, hr2, store_has_added _ _ _ _⟩
  | childExit =>
    left
    obtain ⟨pc, lp, ch, ex, tr⟩ := p
    simp only at hacq hex hatt hsp
    subst hex
    cases pc <;> simp [MainPc.acquired] at hacq <;> cases ch <;>
      simp [step, childExit, Proc.startingUp, MainPc.acquired, hatt, hsp]
  | signal sig =>
    left
    simp only [step, hex, tasksStarted_of_not_acquired p.pc hacq]
    exact ⟨hacq, hex, hatt, hsp⟩
  | tick =>
    left
    simp only [step, hex, tasksStarted_of_not_acquired p.pc hacq]
    exact ⟨hacq, hex, hatt, hsp⟩

theorem denied_not_acquired (p : Proc) (h : p.denied) : p.pc.acquired = false := by
  rw [h.1]; rfl

theorem clusterStep_exclusive (cfgs : Nat → Config) (path : String)
    (hpath : ∀ i, (cfgs i).lockNode = path) (ia : Nat × Action) (cl : Cluster)
    (h : cl.exclusive path) : (clusterStep cfgs ia cl).exclusive path := by
  obtain ⟨k, a⟩ := ia
  obtain ⟨hclass, hnode, huniq⟩ := h
  have hmono : ∀ q, Store.has cl.store q = true →
      Store.has (step storeClient (cfgs k) a (cl.store, cl.procs k)).1 q = true :=
    fun q hq => step_store_mono (cfgs k) a cl.store (cl.procs k) q hq
  -- what the step does to process `k`
  have hk : ((step storeClient (cfgs k) a (cl.store, cl.procs k)).2.pc.acquired = true
        ∨ (step storeClient (cfgs k) a (cl.store, cl.procs k)).2.startingUp
        ∨ (step storeClient (cfgs k) a (cl.store, cl.procs k)).2.denied)
      ∧ ((step storeClient (cfgs k) a (cl.store, cl.procs k)).2.pc.acquired = true →
          Store.has (step storeClient (cfgs k) a (cl.store, cl.procs k)).1 path = true
          ∧ ((cl.procs k).pc.acquired = true ∨ Store.has cl.store path = false)) := by
    rcases hclass k with hacq | hup | hden
    · have h2 := step_acquired storeClient (cfgs k) a (cl.store, cl.procs k) hacq
      exact ⟨Or.inl h2, fun _ => ⟨hmono path (hnode k hacq), Or.inl hacq⟩⟩
    · rcases step_startingUp (cfgs k) a cl.store (cl.procs k) hup with h2 | h2 | h2
      · exact ⟨Or.inr (Or.inl h2), fun h3 => by rw [h2.1] at h3; cases h3⟩
      · exact ⟨Or.inr (Or.inr h2),
          fun h3 => by rw [denied_not_acquired _ h2] at h3; cases h3⟩
      · rw [hpath k] at h2
        exact ⟨Or.inl h2.1, fun _ => ⟨h2.2.2, Or.inr h2.2.1⟩⟩
    · have hsame := step_of_exited storeClient (cfgs k) a (cl.store, cl.procs k) _ hden.2.1
      rw [hsame]
      exact ⟨Or.inr (Or.inr hden),
        fun h3 => by rw [denied_not_acquired _ hden] at h3; cases h3⟩
  refine ⟨?_, ?_, ?_⟩
  · intro i
    by_cases hi : i = k
    · subst hi
      simpa [clusterStep] using hk.1
    · simpa [clusterStep, Function.update_noteq hi] using hclass i
  · intro i hacq
    by_cases hi : i = k
    · subst hi
      simp only [clusterStep, Function.update_same] at hacq ⊢
      exact (hk.2 hacq).1
    · simp only [clusterStep, Function.update_noteq hi] at hacq ⊢
      exact hmono path (hnode i hacq)
  · intro i j hi hj
    by_cases hik : i = k <;> by_cases hjk : j = k
    · rw [hik, hjk]
    · subst hik
      simp only [clusterStep, Function.update_same] at hi
      simp only [clusterStep, Function.update_noteq hjk] at hj
      rcases (hk.2 hi).2 with hold | hfree
      · exact huniq _ _ hold hj
      · rw [hnode j hj] at hfree; cases hfree
    · subst hjk
      simp only [clusterStep, Function.update_same] at hj
      simp only [clusterStep, Function.update_noteq hik] at hi
      rcases (hk.2 hj).2 with hold | hfree
      · exact huniq _ _ hi hold
      · rw [hnode i hi] at hfree; cases hfree
    · simp only [clusterStep, Function.update_noteq hik] at hi
      simp only [clusterStep, Function.update_noteq hjk] at hj
      exact huniq i j hi hj

theorem clusterRun_exclusive (cfgs : Nat → Config) (path : String)
    (hpath : ∀ i, (cfgs i).lockNode = path) (sched : List (Nat × Action)) (cl : Cluster)
    (h : cl.exclusive path) : (clusterRun cfgs sched cl).exclusive path := by
  induction sched generalizing cl with
  | nil => exact h
  | cons ia sched ih =>
    show (clusterRun cfgs sched (clusterStep cfgs ia cl)).exclusive path
    exact ih _ (clusterStep_exclusive cfgs path hpath ia cl h)

theorem boot_startingUp (cfg : Config) (hargs : 2 ≤ cfg.args.length) :
    (boot cfg none).startingUp := by
  have hlt : ¬ cfg.args.length < 2 := by omega
  unfold boot
  simp only [hlt, if_false]
  by_cases hs : cfg.sleepBefore > 0 <;>
    simp [hs, Proc.startingUp, Proc.emit, MainPc.acquired, attempted, spawned]

/-- C2: processes on any number of hosts, started with the same root and the
same lock name against one store whose create is atomic and which loses no
node, run under any schedule of their actions.  At every point at most one
process is past the create of line 68; only that process has started a child
and its lock node is in the store; every other process that has called the
create of line 68 has ended by `os.Exit(1)` without starting a child. -/
theorem mutual_exclusion (cfgs : Nat → Config) (root name : String)
    (hroot : ∀ i, (cfgs i).prefixNode = root) (hname : ∀ i, (cfgs i).lockname = name)
    (hargs : ∀ i, 2 ≤ (cfgs i).args.length)
    (cl0 : Cluster) (hboot : ∀ i, cl0.procs i = boot (cfgs i) none)
    (sched : List (Nat × Action)) :
    (∀ i j, ((clusterRun cfgs sched cl0).procs i).pc.acquired = true →
        ((clusterRun cfgs sched cl0).procs j).pc.acquired = true → i = j)
    ∧ (∀ i, spawned ((clusterRun cfgs sched cl0).procs i).trace = true →
        ((clusterRun cfgs sched cl0).procs i).pc.acquired = true)
    ∧ (∀ i, ((clusterRun cfgs sched cl0).procs i).pc.acquired = true →
        Store.has (clusterRun cfgs sched cl0).store (root ++ "/" ++ name) = true)
    ∧ (∀ i, ((clusterRun cfgs sched cl0).procs i).pc.acquired = false →
        attempted ((clusterRun cfgs sched cl0).procs i).trace = true →
        ((clusterRun cfgs sched cl0).procs i).exit = some (.osExit 1)
        ∧ spawned ((clusterRun cfgs sched cl0).procs i).trace = false) := by
  have hpath : ∀ i, (cfgs i).lockNode = root ++ "/" ++ name := by
    intro i
    simp only [Config.lockNode, hroot i, hname i]
  have h0 : cl0.exclusive (root ++ "/" ++ name) := by
    have hup : ∀ i, (cl0.procs i).startingUp := fun i => by
      rw [hboot i]; exact boot_startingUp (cfgs i) (hargs i)
    refine ⟨fun i => Or.inr (Or.inl (hup i)), ?_, ?_⟩
    · intro i hi
      rw [(hup i).1] at hi; cases hi
    · intro i j hi
      rw [(hup i).1] at hi; cases hi
  obtain ⟨hclass, hnode, huniq⟩ := clusterRun_exclusive cfgs _ hpath sched cl0 h0
  refine ⟨huniq, ?_, hnode, ?_⟩
  · intro i hsp
    rcases hclass i with h | h | h
    · exact h
    · rw [h.2.2.2] at hsp; cases hsp
    · rw [h.2.2.2] at hsp; cases hsp
  · intro i hna hatt
    rcases hclass i with h | h | h
    · rw [h] at hna; cases hna
    · rw [h.2.2.1] at hatt; cases hatt
    · exact ⟨h.2.1, h.2.2.2⟩

/-- Witness of C2: `host-a` and `host-b` race for `job1` against an empty
store, step by step in turn; `host-a` starts its child, `host-b` exits 1. -/
theorem mutual_exclusion_witness :
    ((clusterRun twoHosts turns twoHostsBoot).procs 0).pc = .wait
    ∧ spawned ((clusterRun twoHosts turns twoHostsBoot).procs 0).trace = true
    ∧ attempted ((clusterRun twoHosts turns twoHostsBoot).procs 1).trace = true
    ∧ ((clusterRun twoHosts turns twoHostsBoot).procs 1).exit = some (.osExit 1)
    ∧ spawned ((clusterRun twoHosts turns twoHostsBoot).procs 1).trace = false :=
  have h := mutual_exclusion twoHosts "/zklock" "job1"
    (fun i => by unfold twoHosts; split <;> rfl) (fun i => by unfold twoHosts; split <;> rfl)
    (fun i => by unfold twoHosts; split <;> decide) twoHostsBoot (fun _ => rfl) turns
  ⟨by decide, by decide, by decide, (h.2.2.2 1 (by decide) (by decide)).1,
    (h.2.2.2 1 (by decide) (by decide)).2⟩

end Zklock
